import Mathlib

/-!
Verification of the interactive agent layer (`minisweagent/agents/interactive.py`).

The file shallowly embeds the state and the operations of `InteractiveAgent`:
the mode state machine, the confirmation whitelist check, the snapshot ledger
(`_create_snapshot`), the rollback handler (`_handle_rollback`), the special
input dispatcher (`_prompt_and_handle_special`), the interrupt handler in
`step`, and the confirmation flow in `execute_action` / `ask_confirmation`.
User interaction is modelled by a list of input lines consumed by the
re-prompt loop; the environment collaborator is a record of capability flags
and per-name call outcomes (success or raised exception).
-/

namespace Interactive

/-! ### Python string primitives used by the source -/

/-- Characters Python's `str.split()` and `str.strip()` treat as whitespace. -/
def pyIsSpace (c : Char) : Bool :=
  c = ' ' || c = '\t' || c = '\n' || c = '\r' || c = '\x0b' || c = '\x0c'

/-- Model of Python `str.startswith(pre)`. -/
def pyStartsWith (s pre : String) : Bool :=
  pre.data.isPrefixOf s.data

/-- Model of Python `str.strip()`: drop leading and trailing whitespace. -/
def pyStrip (s : String) : String :=
  String.mk (((s.data.dropWhile pyIsSpace).reverse.dropWhile pyIsSpace).reverse)

/-- Accumulator-based worker for `pySplit`; `acc` holds the current word
reversed. -/
def pyWordsAux : List Char → List Char → List (List Char)
  | [], acc => if acc.isEmpty then [] else [acc.reverse]
  | c :: cs, acc =>
    if pyIsSpace c then
      if acc.isEmpty then pyWordsAux cs [] else acc.reverse :: pyWordsAux cs []
    else pyWordsAux cs (c :: acc)

/-- Model of Python `str.split()` with no argument: split on runs of
whitespace, discarding empty pieces. -/
def pySplit (s : String) : List String :=
  (pyWordsAux s.data []).map String.mk

/-- Digit tail of a Python integer literal: digits possibly separated by
single underscores (an underscore must sit between two digits). -/
def pyDigitsAux : Nat → List Char → Option Nat
  | acc, [] => some acc
  | acc, '_' :: c :: rest =>
    if c.isDigit then pyDigitsAux (acc * 10 + (c.toNat - '0'.toNat)) rest else none
  | _, '_' :: [] => none
  | acc, c :: rest =>
    if c.isDigit then pyDigitsAux (acc * 10 + (c.toNat - '0'.toNat)) rest else none

/-- Unsigned part of Python `int(...)`: a nonempty digit sequence, with
Python's underscore grouping rule. -/
def pyNatOfChars : List Char → Option Nat
  | c :: rest => if c.isDigit then pyDigitsAux (c.toNat - '0'.toNat) rest else none
  | [] => none

/-- Model of Python `int(str)` on whitespace-free input (the handler only
applies it to pieces produced by `split()`): optional sign then digits.
Returns `none` where Python raises `ValueError`. -/
def parsePyInt (s : String) : Option Int :=
  match s.data with
  | '+' :: rest => (pyNatOfChars rest).map Int.ofNat
  | '-' :: rest => (pyNatOfChars rest).map (fun n => -(n : Int))
  | cs => (pyNatOfChars cs).map Int.ofNat

/-! ### Regular expressions (model of the `re` patterns in the whitelist)

The whitelist entries are regular expressions checked with `re.match`,
which anchors at the start of the string and succeeds on any matching
prefix.  We embed regular expressions as an inductive syntax with the
standard Brzozowski-derivative matcher. -/

inductive Regex where
  | emptyset : Regex
  | epsilon : Regex
  | chr : Char → Regex
  | alt : Regex → Regex → Regex
  | cat : Regex → Regex → Regex
  | star : Regex → Regex
deriving DecidableEq

/-- Does the regex accept the empty word? -/
def Regex.nullable : Regex → Bool
  | .emptyset => false
  | .epsilon => true
  | .chr _ => false
  | .alt r₁ r₂ => r₁.nullable || r₂.nullable
  | .cat r₁ r₂ => r₁.nullable && r₂.nullable
  | .star _ => true

/-- Brzozowski derivative of a regex by one character. -/
def Regex.deriv : Char → Regex → Regex
  | _, .emptyset => .emptyset
  | _, .epsilon => .emptyset
  | a, .chr c => if a = c then .epsilon else .emptyset
  | a, .alt r₁ r₂ => .alt (Regex.deriv a r₁) (Regex.deriv a r₂)
  | a, .cat r₁ r₂ =>
    if r₁.nullable then
      .alt (.cat (Regex.deriv a r₁) r₂) (Regex.deriv a r₂)
    else
      .cat (Regex.deriv a r₁) r₂
  | a, .star r => .cat (Regex.deriv a r) (.star r)

/-- Full-word acceptance: derive by each character, then test nullability. -/
def Regex.accepts (r : Regex) (w : List Char) : Bool :=
  (w.foldl (fun r c => Regex.deriv c r) r).nullable

/-- Model of Python `re.match(r, s)` truthiness: the pattern matches some
prefix of `s` (anchored at the start, not a full-string match). -/
def reMatch (r : Regex) (s : String) : Bool :=
  (List.range (s.data.length + 1)).any (fun k => r.accepts (s.data.take k))

/-! ### Data model -/

/-- The three operating modes (`InteractiveAgentConfig.mode`). -/
inductive Mode where
  | human : Mode
  | confirm : Mode
  | yolo : Mode
deriving DecidableEq

/-- One conversation turn (`self.messages` entries; only role and content
matter to this layer). -/
structure Message where
  role : String
  content : String
deriving DecidableEq

/-- `SnapshotInfo` from the source. -/
structure SnapshotInfo where
  name : String
  message_count : Nat
  step_number : Nat
deriving DecidableEq

/-- Outcome of one `Environment.rollback_snapshot` call: success, an
exception of the kinds the handler's `except` clause catches
(`ValueError`/`IndexError`), or any other exception. -/
inductive RbOutcome where
  | ok : RbOutcome
  | errValueOrIndex : RbOutcome
  | errOther : RbOutcome
deriving DecidableEq

/-- The environment collaborator: capability flags (`hasattr` probing plus
the `cwd` setting) and the outcome of each snapshot or rollback call,
keyed by snapshot name. -/
structure Env where
  has_create_snapshot : Bool
  has_rollback_snapshot : Bool
  cwd_set : Bool
  createOutcome : String → Bool
  rollbackOutcome : String → RbOutcome

/-- Mutable state of an `InteractiveAgent`: configured mode and whitelist,
the transcript, the snapshot ledger and the step counter. -/
structure AgentState where
  mode : Mode
  whitelist : List Regex
  messages : List Message
  snapshots : List SnapshotInfo
  step_number : Nat
deriving DecidableEq

/-- A fresh session: empty transcript, empty ledger, step counter 0. -/
def initState (mode : Mode) (whitelist : List Regex) : AgentState :=
  { mode := mode, whitelist := whitelist, messages := [], snapshots := [], step_number := 0 }

/-! ### Core operations -/

/-- `_MODE_COMMANDS_MAPPING`: the three reserved mode tokens. -/
def modeOfToken (t : String) : Option Mode :=
  if t = "/u" then some .human
  else if t = "/c" then some .confirm
  else if t = "/y" then some .yolo
  else none

/-- `should_ask_confirmation`: confirm mode and no whitelist pattern
matches (via `re.match`, i.e. prefix-anchored). -/
def shouldAskConfirmation (mode : Mode) (whitelist : List Regex) (action : String) : Bool :=
  mode = Mode.confirm && !(whitelist.any (fun r => reMatch r action))

/-- The snapshot name `_create_snapshot` derives from the current,
not-yet-incremented step counter. -/
def snapName (s : AgentState) : String :=
  "step-" ++ toString s.step_number

/-- `_create_snapshot`: when the environment has the capability and a cwd is
configured, call `create_snapshot`; on success append a `SnapshotInfo` and
increment the step counter; a raised exception is caught (warning only). -/
def createSnapshot (env : Env) (s : AgentState) : AgentState :=
  if env.has_create_snapshot && env.cwd_set then
    if env.createOutcome (snapName s) then
      { s with
        snapshots := s.snapshots ++ [⟨snapName s, s.messages.length, s.step_number⟩],
        step_number := s.step_number + 1 }
    else s
  else s

/-- How one dispatch of user input ends: a value returned to the caller, a
recursive re-prompt, or an exception propagating out. -/
inductive PromptOutcome where
  | ret : String → PromptOutcome
  | reprompt : PromptOutcome
  | raises : PromptOutcome
deriving DecidableEq

/-- The found-record branch of `_handle_rollback`: probe the rollback
capability, call `Environment.rollback_snapshot(name)` and, on success,
truncate the transcript to the record's `message_count`, keep only ledger
records with `step_number <= target`, and set the counter to `target + 1`.
A `ValueError`/`IndexError` from the call is swallowed by the surrounding
`except` clause; any other exception propagates. -/
def rollbackFound (env : Env) (s : AgentState) (t : Int) (r : SnapshotInfo) :
    AgentState × PromptOutcome :=
  if env.has_rollback_snapshot then
    match env.rollbackOutcome r.name with
    | .ok =>
      ({ s with
         messages := s.messages.take r.message_count,
         snapshots := s.snapshots.filter (fun x => decide ((x.step_number : Int) ≤ t)),
         step_number := t.toNat + 1 }, .reprompt)
    | .errValueOrIndex => (s, .reprompt)
    | .errOther => (s, .raises)
  else (s, .reprompt)

/-- The `/r N` branch of `_handle_rollback`: a failed `int` parse is the
caught `ValueError`, a missing record is reported, otherwise the first
record with the requested step number is rolled back to. -/
def rollbackTo (env : Env) (s : AgentState) : Option Int → AgentState × PromptOutcome
  | none => (s, .reprompt)
  | some t =>
    match s.snapshots.find? (fun x => (x.step_number : Int) == t) with
    | none => (s, .reprompt)
    | some r => rollbackFound env s t r

/-- `_handle_rollback`: split the input; a lone `/r` lists the snapshots and
re-prompts, `/r N` parses the target and dispatches.  Every handled path
ends in a fresh prompt. -/
def handleRollback (env : Env) (s : AgentState) (inp : String) : AgentState × PromptOutcome :=
  match pySplit inp with
  | [] => (s, .reprompt)
  | [_] => (s, .reprompt)
  | _ :: a :: _ => rollbackTo env s (parsePyInt a)

/-- The step number a `/r` input requests, when it parses as `/r N`
(second whitespace-separated piece, Python `int` syntax). -/
def rollbackTarget (inp : String) : Option Int :=
  match pySplit inp with
  | _ :: a :: _ => parsePyInt a
  | _ => none

/-- One dispatch of `_prompt_and_handle_special` on a single input line:
`/h` shows help and re-prompts, `/r...` goes to the rollback handler, an
exact mode token either rejects a self-transition (re-prompt) or switches
the mode and returns the raw token, and anything else is returned verbatim. -/
def dispatchInput (env : Env) (s : AgentState) (inp : String) : AgentState × PromptOutcome :=
  if inp = "/h" then (s, .reprompt)
  else if pyStartsWith inp "/r" then handleRollback env s inp
  else
    match modeOfToken inp with
    | some m => if s.mode = m then (s, .reprompt) else ({ s with mode := m }, .ret inp)
    | none => (s, .ret inp)

/-- How the re-prompt loop ends: a returned value, exhaustion of the supplied
input lines (the real code would still be blocked reading), or a propagated
exception. -/
inductive LoopResult where
  | ret : String → LoopResult
  | exhausted : LoopResult
  | raises : LoopResult
deriving DecidableEq

/-- The re-prompt loop of `_prompt_and_handle_special`: consume input lines
until a dispatch returns a value or raises. -/
def promptLoop (env : Env) : List String → AgentState → AgentState × LoopResult
  | [], s => (s, .exhausted)
  | i :: rest, s =>
    match dispatchInput env s i with
    | (s', .ret v) => (s', .ret v)
    | (s', .reprompt) => promptLoop env rest s'
    | (s', .raises) => (s', .raises)

/-- The message the interrupt handler in `step` attaches: the stripped user
comment, or a default when it is blank or a mode token. -/
def interruptionText (v : String) : String :=
  let m := pyStrip v
  if m = "" || (modeOfToken m).isSome then "Temporary interruption caught." else m

/-- How the wrapped `step` ends in the interrupted case. -/
inductive StepOutcome where
  | nonTerminating : String → StepOutcome
  | pending : StepOutcome
  | envRaise : StepOutcome
deriving DecidableEq

/-- The `except KeyboardInterrupt` branch of `step`, for an interruption
caught at the step boundary (before the base step mutated any state):
prompt the user and raise `NonTerminatingException` with the comment. -/
def interactiveStepInterrupted (env : Env) (inputs : List String) (s : AgentState) :
    AgentState × StepOutcome :=
  match promptLoop env inputs s with
  | (s', .ret v) => (s', .nonTerminating ("Interrupted by user: " ++ interruptionText v))
  | (s', .exhausted) => (s', .pending)
  | (s', .raises) => (s', .envRaise)

/-- How `ask_confirmation` ends: confirmed, or a raised
`NonTerminatingException` with a message, or a loop artifact. -/
inductive ConfirmOutcome where
  | confirmed : ConfirmOutcome
  | nonTerminating : String → ConfirmOutcome
  | pending : ConfirmOutcome
  | envRaise : ConfirmOutcome
deriving DecidableEq

/-- `ask_confirmation`: prompt, strip, then empty or `/y` confirms, `/u`
raises the switch-to-human exception, anything else raises the rejection
exception carrying the user's message. -/
def askConfirmation (env : Env) (inputs : List String) (s : AgentState) :
    AgentState × ConfirmOutcome :=
  match promptLoop env inputs s with
  | (s', .ret v) =>
    let m := pyStrip v
    if m = "" || m = "/y" then (s', .confirmed)
    else if m = "/u" then
      (s', .nonTerminating "Command not executed. Switching to human mode")
    else
      (s', .nonTerminating
        ("Command not executed. The user rejected your command with the following message: " ++ m))
  | (s', .exhausted) => (s', .pending)
  | (s', .raises) => (s', .envRaise)

/-- How `execute_action` ends: delegated to the base executor, aborted by a
`NonTerminatingException` from the confirmation prompt, or a loop artifact. -/
inductive ExecResult where
  | executed : ExecResult
  | aborted : String → ExecResult
  | pending : ExecResult
  | envRaise : ExecResult
deriving DecidableEq

/-- Result of `execute_action`: final state, how it ended, and whether
`_create_snapshot` was reached. -/
structure ExecOut where
  state : AgentState
  result : ExecResult
  snapshotAttempted : Bool
deriving DecidableEq

/-- `execute_action`: ask for confirmation when required (a raised
exception propagates, skipping the rest), then attempt a snapshot, then
delegate to the base executor. -/
def executeAction (env : Env) (inputs : List String) (s : AgentState) (action : String) :
    ExecOut :=
  match (if shouldAskConfirmation s.mode s.whitelist action
         then askConfirmation env inputs s
         else (s, ConfirmOutcome.confirmed)) with
  | (s', .confirmed) => ⟨createSnapshot env s', .executed, true⟩
  | (s', .nonTerminating m) => ⟨s', .aborted m, false⟩
  | (s', .pending) => ⟨s', .pending, false⟩
  | (s', .envRaise) => ⟨s', .envRaise, false⟩

/-! ### Event traces -/

/-- Events a session is built from: a message appended to the transcript, a
snapshot attempt (with the environment governing its outcome), or a
rollback request. -/
inductive AgentEvent where
  | addMsg : Message → AgentEvent
  | snap : Env → AgentEvent
  | rb : Env → String → AgentEvent

/-- Apply one event to the state. -/
def applyEvent (s : AgentState) : AgentEvent → AgentState
  | .addMsg m => { s with messages := s.messages ++ [m] }
  | .snap env => createSnapshot env s
  | .rb env inp => (handleRollback env s inp).1

/-- Run a trace of events from a state. -/
def runEvents (s : AgentState) (tr : List AgentEvent) : AgentState :=
  tr.foldl applyEvent s

/-- An environment on which every `create_snapshot` call succeeds. -/
def goodSnapEnv (env : Env) : Prop :=
  env.has_create_snapshot = true ∧ env.cwd_set = true ∧ ∀ n, env.createOutcome n = true

/-- An event is a transcript append or a succeeding snapshot attempt. -/
def snapshotEvent : AgentEvent → Prop
  | .addMsg _ => True
  | .snap env => goodSnapEnv env
  | .rb _ _ => False

/-! ### Concrete fixtures used by witnesses and counterexamples -/

/-- A fully capable environment on which every call succeeds. -/
def envOK : Env := ⟨true, true, true, fun _ => true, fun _ => .ok⟩

/-- A capable environment whose `rollback_snapshot` raises an exception that
is neither `ValueError` nor `IndexError`. -/
def envRollbackErr : Env := ⟨true, true, true, fun _ => true, fun _ => .errOther⟩

/-- A capable environment whose `create_snapshot` always raises. -/
def envSnapFail : Env := ⟨true, true, true, fun _ => false, fun _ => .ok⟩

/-- A small transcript. -/
def sampleMessages : List Message := [⟨"user", "task"⟩, ⟨"assistant", "cmd"⟩, ⟨"user", "obs"⟩]

/-- A reachable mid-session state: two snapshots taken at transcript lengths
1 and 2, step counter 2. -/
def sampleState : AgentState :=
  { mode := .confirm, whitelist := [], messages := sampleMessages,
    snapshots := [⟨"step-0", 1, 0⟩, ⟨"step-1", 2, 1⟩], step_number := 2 }

/-! ### Helper lemmas -/

/-- When the input parses as `/r N`, the handler reduces to the `/r N`
branch. -/
theorem handleRollback_eq_rollbackTo (env : Env) (s : AgentState) (inp : String) (t : Int)
    (ht : rollbackTarget inp = some t) :
    handleRollback env s inp = rollbackTo env s (some t) := by
  unfold rollbackTarget at ht
  unfold handleRollback
  rcases hsp : pySplit inp with _ | ⟨a, _ | ⟨b, rest⟩⟩
  · rw [hsp] at ht
    exact Option.noConfusion ht
  · rw [hsp] at ht
    exact Option.noConfusion ht
  · rw [hsp] at ht
    have ht' : parsePyInt b = some t := ht
    show rollbackTo env s (parsePyInt b) = rollbackTo env s (some t)
    rw [ht']

/-- Unfolding equation for the parsed branch of `rollbackTo`. -/
theorem rollbackTo_some (env : Env) (s : AgentState) (t : Int) :
    rollbackTo env s (some t) =
      match s.snapshots.find? (fun x => (x.step_number : Int) == t) with
      | none => (s, PromptOutcome.reprompt)
      | some r => rollbackFound env s t r := rfl

/-- A found record with a capable environment and a successful call yields
the truncated state. -/
theorem rollbackFound_ok (env : Env) (s : AgentState) (t : Int) (r : SnapshotInfo)
    (hcap : env.has_rollback_snapshot = true)
    (hok : env.rollbackOutcome r.name = .ok) :
    rollbackFound env s t r =
      ({ s with
         messages := s.messages.take r.message_count,
         snapshots := s.snapshots.filter (fun x => decide ((x.step_number : Int) ≤ t)),
         step_number := t.toNat + 1 }, .reprompt) := by
  unfold rollbackFound
  rw [if_pos hcap, hok]

/-- The handler propagates an exception only from the found-and-capable
branch, with the state untouched. -/
theorem rollbackFound_raises (env : Env) (s : AgentState) (t : Int) (r : SnapshotInfo)
    (h : (rollbackFound env s t r).2 = .raises) :
    (rollbackFound env s t r).1 = s ∧ env.has_rollback_snapshot = true ∧
      env.rollbackOutcome r.name = .errOther := by
  unfold rollbackFound at h ⊢
  by_cases hc : env.has_rollback_snapshot = true
  · rw [if_pos hc] at h ⊢
    cases ho : env.rollbackOutcome r.name
    · rw [ho] at h
      exact PromptOutcome.noConfusion h
    · rw [ho] at h
      exact PromptOutcome.noConfusion h
    · exact ⟨rfl, hc, rfl⟩
  · rw [if_neg hc] at h
    exact PromptOutcome.noConfusion h

/-- `re.match` truthiness coincides with acceptance of some prefix. -/
theorem reMatch_iff (r : Regex) (s : String) :
    reMatch r s = true ↔ ∃ p t : List Char, p ++ t = s.data ∧ r.accepts p = true := by
  unfold reMatch
  rw [List.any_eq_true]
  constructor
  · rintro ⟨k, _, hacc⟩
    exact ⟨s.data.take k, s.data.drop k, List.take_append_drop k s.data, hacc⟩
  · rintro ⟨p, t, hpt, hacc⟩
    refine ⟨p.length, ?_, ?_⟩
    · rw [List.mem_range]
      have hle : p.length ≤ s.data.length := by
        rw [← hpt, List.length_append]
        omega
      omega
    · rw [← hpt, List.take_left]
      exact hacc

/-! ### Claims -/

/-- C2: a rollback request `/r N` for a step number `N` carried by no ledger
record leaves the transcript, the snapshot ledger and the step counter
completely unchanged, and re-prompts the user. -/
theorem rollback_missing_target_noop (env : Env) (s : AgentState) (inp : String) (t : Int)
    (ht : rollbackTarget inp = some t)
    (hfind : s.snapshots.find? (fun x => (x.step_number : Int) == t) = none) :
    handleRollback env s inp = (s, .reprompt) := by
  rw [handleRollback_eq_rollbackTo env s inp t ht, rollbackTo_some, hfind]

/-- Witness for C2 at a concrete state and input. -/
theorem rollback_missing_target_noop_witness :
    handleRollback envOK sampleState "/r 5" = (sampleState, .reprompt) :=
  rollback_missing_target_noop envOK sampleState "/r 5" 5 (by decide) (by decide)

/-- C1: a successful `/r N` (record found, environment capable, call
succeeds) truncates the transcript to the found record's `message_count`,
keeps exactly the ledger records with `step_number <= N`, and sets the step
counter to `N + 1`. -/
theorem rollback_success_atomicity (env : Env) (s : AgentState) (inp : String) (t : Int)
    (r : SnapshotInfo)
    (ht : rollbackTarget inp = some t)
    (hfind : s.snapshots.find? (fun x => (x.step_number : Int) == t) = some r)
    (hcap : env.has_rollback_snapshot = true)
    (hok : env.rollbackOutcome r.name = .ok) :
    handleRollback env s inp =
      ({ s with
         messages := s.messages.take r.message_count,
         snapshots := s.snapshots.filter (fun x => decide ((x.step_number : Int) ≤ t)),
         step_number := t.toNat + 1 }, .reprompt) ∧
    (r.step_number : Int) = t ∧
    (((handleRollback env s inp).1.step_number : Int) = t + 1 ∧
     (∀ x ∈ (handleRollback env s inp).1.snapshots, (x.step_number : Int) ≤ t) ∧
     (∀ x ∈ s.snapshots, (x.step_number : Int) ≤ t → x ∈ (handleRollback env s inp).1.snapshots)) := by
  have hstep : rollbackTo env s (some t) = rollbackFound env s t r := by
    rw [rollbackTo_some, hfind]
  have hmain : handleRollback env s inp =
      ({ s with
         messages := s.messages.take r.message_count,
         snapshots := s.snapshots.filter (fun x => decide ((x.step_number : Int) ≤ t)),
         step_number := t.toNat + 1 }, .reprompt) :=
    (handleRollback_eq_rollbackTo env s inp t ht).trans
      (hstep.trans (rollbackFound_ok env s t r hcap hok))
  have hrb := List.find?_some hfind
  have hrt : (r.step_number : Int) = t := by
    simpa using hrb
  refine ⟨hmain, hrt, ?_, ?_, ?_⟩
  · rw [hmain]
    show ((t.toNat + 1 : Nat) : Int) = t + 1
    omega
  · intro x hx
    rw [hmain] at hx
    have hx' : x ∈ s.snapshots.filter (fun x => decide ((x.step_number : Int) ≤ t)) := hx
    exact of_decide_eq_true (List.mem_filter.mp hx').2
  · intro x hx hle
    rw [hmain]
    show x ∈ s.snapshots.filter (fun x => decide ((x.step_number : Int) ≤ t))
    exact List.mem_filter.mpr ⟨hx, decide_eq_true hle⟩

/-- Witness for C1: rolling `sampleState` back to step 0. -/
theorem rollback_success_atomicity_witness :
    handleRollback envOK sampleState "/r 0" =
      ({ sampleState with
         messages := sampleState.messages.take 1,
         snapshots := sampleState.snapshots.filter (fun x => decide ((x.step_number : Int) ≤ 0)),
         step_number := 1 }, .reprompt) :=
  (rollback_success_atomicity envOK sampleState "/r 0" 0 ⟨"step-0", 1, 0⟩
    (by decide) (by decide) (by decide) (by decide)).1

/-- C8 counterexample: the rollback handler does raise to its caller when
`rollback_snapshot` raises an exception other than `ValueError` or
`IndexError`, refuting "never raises ... including an environment whose
rollback_snapshot call raises an exception". -/
theorem rollback_env_error_propagates :
    pyStartsWith "/r 0" "/r" = true ∧
    handleRollback envRollbackErr sampleState "/r 0" = (sampleState, .raises) := by
  decide

/-- C8 amended: the handler raises only when `rollback_snapshot` itself
raises an exception outside the caught `ValueError`/`IndexError` kinds, on a
found record with a capable environment; even then the state is returned
unchanged.  All other paths end in a fresh prompt. -/
theorem rollback_raises_only_on_env_error (env : Env) (s : AgentState) (inp : String)
    (h : (handleRollback env s inp).2 = .raises) :
    (handleRollback env s inp).1 = s ∧
    ∃ t r, rollbackTarget inp = some t ∧
      s.snapshots.find? (fun x => (x.step_number : Int) == t) = some r ∧
      env.has_rollback_snapshot = true ∧ env.rollbackOutcome r.name = .errOther := by
  unfold handleRollback at h ⊢
  rcases hsp : pySplit inp with _ | ⟨a, _ | ⟨b, rest⟩⟩
  · rw [hsp] at h
    exact PromptOutcome.noConfusion h
  · rw [hsp] at h
    exact PromptOutcome.noConfusion h
  · rw [hsp] at h
    have htgt : rollbackTarget inp = parsePyInt b := by
      unfold rollbackTarget
      rw [hsp]
    have h' : (rollbackTo env s (parsePyInt b)).2 = .raises := h
    show (rollbackTo env s (parsePyInt b)).1 = s ∧ _
    cases hp : parsePyInt b with
    | none =>
      rw [hp] at h'
      exact PromptOutcome.noConfusion h'
    | some t =>
      rw [hp] at h'
      cases hf : s.snapshots.find? (fun x => (x.step_number : Int) == t) with
      | none =>
        have hred : rollbackTo env s (some t) = (s, .reprompt) := by
          rw [rollbackTo_some, hf]
        rw [hred] at h'
        exact PromptOutcome.noConfusion h'
      | some r =>
        have hred : rollbackTo env s (some t) = rollbackFound env s t r := by
          rw [rollbackTo_some, hf]
        rw [hred] at h' ⊢
        obtain ⟨h1, h2, h3⟩ := rollbackFound_raises env s t r h'
        exact ⟨h1, t, r, htgt.trans hp, hf, h2, h3⟩

/-- Witness for C8 amended: a propagated environment error leaves the state
unchanged. -/
theorem rollback_raises_only_on_env_error_witness :
    (handleRollback envRollbackErr sampleState "/r 1").1 = sampleState ∧
    ∃ t r, rollbackTarget "/r 1" = some t ∧
      sampleState.snapshots.find? (fun x => (x.step_number : Int) == t) = some r ∧
      envRollbackErr.has_rollback_snapshot = true ∧
      envRollbackErr.rollbackOutcome r.name = .errOther :=
  rollback_raises_only_on_env_error envRollbackErr sampleState "/r 1" (by decide)

/-- C9: on input equal to a mode token, a self-transition is refused with a
re-prompt and an unchanged state; otherwise the mode is switched and the
raw token is returned to the caller. -/
theorem mode_token_transition_spec (env : Env) (s : AgentState) (inp : String) (m : Mode)
    (h : modeOfToken inp = some m) :
    (s.mode = m → dispatchInput env s inp = (s, .reprompt)) ∧
    (s.mode ≠ m → dispatchInput env s inp = ({ s with mode := m }, .ret inp)) := by
  have h1 : inp = "/u" ∨ inp = "/c" ∨ inp = "/y" := by
    unfold modeOfToken at h
    by_cases e1 : inp = "/u"
    · exact Or.inl e1
    by_cases e2 : inp = "/c"
    · exact Or.inr (Or.inl e2)
    by_cases e3 : inp = "/y"
    · exact Or.inr (Or.inr e3)
    rw [if_neg e1, if_neg e2, if_neg e3] at h
    exact Option.noConfusion h
  rcases h1 with h1 | h1 | h1 <;> subst h1
  · have hm : m = Mode.human := by
      have h2 : modeOfToken "/u" = some Mode.human := by decide
      rw [h2] at h
      exact (Option.some_inj.mp h).symm
    subst hm
    refine ⟨fun he => ?_, fun hne => ?_⟩
    · rw [show dispatchInput env s "/u" =
          (if s.mode = Mode.human then (s, PromptOutcome.reprompt)
           else ({ s with mode := Mode.human }, PromptOutcome.ret "/u")) from rfl, if_pos he]
    · rw [show dispatchInput env s "/u" =
          (if s.mode = Mode.human then (s, PromptOutcome.reprompt)
           else ({ s with mode := Mode.human }, PromptOutcome.ret "/u")) from rfl, if_neg hne]
  · have hm : m = Mode.confirm := by
      have h2 : modeOfToken "/c" = some Mode.confirm := by decide
      rw [h2] at h
      exact (Option.some_inj.mp h).symm
    subst hm
    refine ⟨fun he => ?_, fun hne => ?_⟩
    · rw [show dispatchInput env s "/c" =
          (if s.mode = Mode.confirm then (s, PromptOutcome.reprompt)
           else ({ s with mode := Mode.confirm }, PromptOutcome.ret "/c")) from rfl, if_pos he]
    · rw [show dispatchInput env s "/c" =
          (if s.mode = Mode.confirm then (s, PromptOutcome.reprompt)
           else ({ s with mode := Mode.confirm }, PromptOutcome.ret "/c")) from rfl, if_neg hne]
  · have hm : m = Mode.yolo := by
      have h2 : modeOfToken "/y" = some Mode.yolo := by decide
      rw [h2] at h
      exact (Option.some_inj.mp h).symm
    subst hm
    refine ⟨fun he => ?_, fun hne => ?_⟩
    · rw [show dispatchInput env s "/y" =
          (if s.mode = Mode.yolo then (s, PromptOutcome.reprompt)
           else ({ s with mode := Mode.yolo }, PromptOutcome.ret "/y")) from rfl, if_pos he]
    · rw [show dispatchInput env s "/y" =
          (if s.mode = Mode.yolo then (s, PromptOutcome.reprompt)
           else ({ s with mode := Mode.yolo }, PromptOutcome.ret "/y")) from rfl, if_neg hne]

/-- Witness for C9: switching `sampleState` (confirm mode) to yolo. -/
theorem mode_token_transition_spec_witness :
    dispatchInput envOK sampleState "/y" = ({ sampleState with mode := Mode.yolo }, .ret "/y") :=
  (mode_token_transition_spec envOK sampleState "/y" Mode.yolo (by decide)).2 (by decide)

/-- C5: confirmation is never requested in yolo or human mode, and in
confirm mode it is skipped exactly when some whitelist pattern matches a
prefix of the command (the `re.match` semantics). -/
theorem should_ask_confirmation_spec (mode : Mode) (W : List Regex) (C : String) :
    ((mode = Mode.yolo ∨ mode = Mode.human) → shouldAskConfirmation mode W C = false) ∧
    (mode = Mode.confirm →
      (shouldAskConfirmation mode W C = false ↔
        ∃ r ∈ W, ∃ p t : List Char, p ++ t = C.data ∧ Regex.accepts r p = true)) := by
  constructor
  · rintro (rfl | rfl) <;> rfl
  · rintro rfl
    have hsa : shouldAskConfirmation Mode.confirm W C = !(W.any (fun r => reMatch r C)) := rfl
    rw [hsa, Bool.not_eq_false']
    simp only [List.any_eq_true, reMatch_iff]

/-- Witness for C5: yolo mode never asks. -/
theorem should_ask_confirmation_spec_witness :
    shouldAskConfirmation Mode.yolo [] "rm -rf /" = false :=
  (should_ask_confirmation_spec Mode.yolo [] "rm -rf /").1 (Or.inl rfl)

/-- C3: when `create_snapshot` raises, `_create_snapshot` leaves the ledger
and the step counter (and the whole state) unchanged, and `execute_action`
still proceeds to delegate execution. -/
theorem snapshot_failure_is_noop (env : Env) (s : AgentState)
    (h1 : env.has_create_snapshot = true) (h2 : env.cwd_set = true)
    (h3 : env.createOutcome (snapName s) = false) :
    createSnapshot env s = s ∧
    ∀ (inputs : List String) (action : String),
      shouldAskConfirmation s.mode s.whitelist action = false →
      executeAction env inputs s action = ⟨s, .executed, true⟩ := by
  have hcs : createSnapshot env s = s := by
    unfold createSnapshot
    rw [h1, h2, h3]
    simp
  refine ⟨hcs, ?_⟩
  intro inputs action hsa
  unfold executeAction
  simp [hsa, hcs]

/-- Witness for C3: a failing snapshot environment, execution proceeding in
yolo mode. -/
theorem snapshot_failure_is_noop_witness :
    createSnapshot envSnapFail { sampleState with mode := Mode.yolo } =
      { sampleState with mode := Mode.yolo } ∧
    executeAction envSnapFail [] { sampleState with mode := Mode.yolo } "ls" =
      ⟨{ sampleState with mode := Mode.yolo }, .executed, true⟩ :=
  ⟨(snapshot_failure_is_noop envSnapFail { sampleState with mode := Mode.yolo }
      rfl rfl rfl).1,
   (snapshot_failure_is_noop envSnapFail { sampleState with mode := Mode.yolo }
      rfl rfl rfl).2 [] "ls" (by decide)⟩

/-- C7 counterexample: with confirmation required and the user rejecting
(input `no`), `execute_action` aborts via the rejection exception and no
snapshot attempt is made — the ledger stays empty-handed even on an
environment where any attempt would have appended a record.  This refutes
"a snapshot attempt is always made ... including when the user rejects". -/
theorem rejected_confirmation_skips_snapshot :
    (executeAction envOK ["no"] sampleState "rm -rf /").snapshotAttempted = false ∧
    (executeAction envOK ["no"] sampleState "rm -rf /").result =
      .aborted
        "Command not executed. The user rejected your command with the following message: no" ∧
    (executeAction envOK ["no"] sampleState "rm -rf /").state.snapshots =
      sampleState.snapshots := by
  decide

/-- C7 amended: `execute_action` attempts a snapshot exactly when it reaches
delegation (confirmation not required, or passed); a rejection aborts the
action before any snapshot attempt.  When it delegates, the delegated state
is the post-confirmation state after the snapshot attempt. -/
theorem snapshot_attempt_iff_delegation (env : Env) (inputs : List String) (s : AgentState)
    (action : String) :
    ((executeAction env inputs s action).snapshotAttempted = true ↔
      (executeAction env inputs s action).result = .executed) ∧
    ((executeAction env inputs s action).result = .executed →
      ∃ s', (executeAction env inputs s action).state = createSnapshot env s') := by
  unfold executeAction
  by_cases hsa : shouldAskConfirmation s.mode s.whitelist action = true
  · rw [if_pos hsa]
    rcases hac : askConfirmation env inputs s with ⟨s1, oc⟩
    cases oc with
    | confirmed => exact ⟨by simp, fun _ => ⟨s1, rfl⟩⟩
    | nonTerminating m => exact ⟨by simp, by simp⟩
    | pending => exact ⟨by simp, by simp⟩
    | envRaise => exact ⟨by simp, by simp⟩
  · rw [if_neg hsa]
    exact ⟨by simp, fun _ => ⟨s, rfl⟩⟩

/-- Witness for C7 amended: a whitelisted-free yolo state delegates, so the
snapshot attempt happened. -/
theorem snapshot_attempt_iff_delegation_witness :
    (executeAction envOK [""] sampleState "ls").snapshotAttempted = true :=
  (snapshot_attempt_iff_delegation envOK [""] sampleState "ls").1.mpr (by decide)

/-- One dispatch on input not starting with `/r` never touches the
transcript, the ledger or the step counter. -/
theorem dispatchInput_preserves (env : Env) (s : AgentState) (i : String)
    (hr : pyStartsWith i "/r" = false) :
    (dispatchInput env s i).1.messages = s.messages ∧
    (dispatchInput env s i).1.snapshots = s.snapshots ∧
    (dispatchInput env s i).1.step_number = s.step_number := by
  unfold dispatchInput
  split
  · exact ⟨rfl, rfl, rfl⟩
  · split
    · rename_i hcond
      exact absurd hcond (by simp [hr])
    · split
      · split
        · exact ⟨rfl, rfl, rfl⟩
        · exact ⟨rfl, rfl, rfl⟩
      · exact ⟨rfl, rfl, rfl⟩

/-- The whole re-prompt loop preserves transcript, ledger and counter as
long as no consumed input is a `/r` command. -/
theorem promptLoop_preserves (env : Env) (inputs : List String) :
    ∀ (s s' : AgentState) (res : LoopResult),
      (∀ i ∈ inputs, pyStartsWith i "/r" = false) →
      promptLoop env inputs s = (s', res) →
      s'.messages = s.messages ∧ s'.snapshots = s.snapshots ∧
        s'.step_number = s.step_number := by
  induction inputs with
  | nil =>
    intro s s' res _ h
    have h' : (s, LoopResult.exhausted) = (s', res) := h
    injection h' with ha _
    subst ha
    exact ⟨rfl, rfl, rfl⟩
  | cons i rest ih =>
    intro s s' res hall h
    have hi : pyStartsWith i "/r" = false := hall i (List.mem_cons_self i rest)
    have hrest : ∀ j ∈ rest, pyStartsWith j "/r" = false :=
      fun j hj => hall j (List.mem_cons_of_mem i hj)
    obtain ⟨m1, m2, m3⟩ := dispatchInput_preserves env s i hi
    unfold promptLoop at h
    rcases hd : dispatchInput env s i with ⟨s1, po⟩
    rw [hd] at h m1 m2 m3
    cases po with
    | ret v =>
      have h' : (s1, LoopResult.ret v) = (s', res) := h
      injection h' with ha _
      subst ha
      exact ⟨m1, m2, m3⟩
    | reprompt =>
      have h' : promptLoop env rest s1 = (s', res) := h
      obtain ⟨n1, n2, n3⟩ := ih s1 s' res hrest h'
      exact ⟨n1.trans m1, n2.trans m2, n3.trans m3⟩
    | raises =>
      have h' : (s1, LoopResult.raises) = (s', res) := h
      injection h' with ha _
      subst ha
      exact ⟨m1, m2, m3⟩

/-- C6 counterexample: a rollback command typed at the interrupt prompt
changes the transcript, refuting "the transcript and snapshot ledger are
left exactly as they were before the step began" for every caught
interruption. -/
theorem interrupt_rollback_changes_transcript :
    (interactiveStepInterrupted envOK ["/r 0", "done"] sampleState).1.messages ≠
      sampleState.messages ∧
    (interactiveStepInterrupted envOK ["/r 0", "done"] sampleState).2 =
      .nonTerminating "Interrupted by user: done" := by
  decide

/-- C6 amended: an interruption caught at the step boundary leaves the
transcript, ledger and step counter exactly as they were, provided the
interrupt-prompt interaction contains no `/r` command; it is converted into
a `NonTerminatingException` carrying the user's comment (or the default
message when the comment is blank or a mode token). -/
theorem interrupt_preserves_state_without_rollback (env : Env) (inputs : List String)
    (s s' : AgentState) (v : String)
    (hnr : ∀ i ∈ inputs, pyStartsWith i "/r" = false)
    (hret : promptLoop env inputs s = (s', .ret v)) :
    s'.messages = s.messages ∧ s'.snapshots = s.snapshots ∧
      s'.step_number = s.step_number ∧
      interactiveStepInterrupted env inputs s =
        (s', .nonTerminating ("Interrupted by user: " ++ interruptionText v)) := by
  obtain ⟨m1, m2, m3⟩ := promptLoop_preserves env inputs s s' (.ret v) hnr hret
  refine ⟨m1, m2, m3, ?_⟩
  unfold interactiveStepInterrupted
  rw [hret]

/-- Witness for C6 amended at a concrete interrupted session. -/
theorem interrupt_preserves_state_without_rollback_witness :
    sampleState.messages = sampleState.messages ∧
    sampleState.snapshots = sampleState.snapshots ∧
    sampleState.step_number = sampleState.step_number ∧
    interactiveStepInterrupted envOK ["hello"] sampleState =
      (sampleState, .nonTerminating ("Interrupted by user: " ++ interruptionText "hello")) :=
  interrupt_preserves_state_without_rollback envOK ["hello"] sampleState sampleState "hello"
    (by decide) (by decide)

/-! ### The ledger indexing invariant -/

/-- The records of a ledger suffix carry consecutive step numbers starting
at `k`. -/
def stepsFrom : Nat → List SnapshotInfo → Prop
  | _, [] => True
  | k, r :: rest => r.step_number = k ∧ stepsFrom (k + 1) rest

/-- The joint invariant of `step_number` and the ledger: the counter equals
the ledger length and records are numbered `0, 1, 2, ...` in order. -/
def ledgerInv (s : AgentState) : Prop :=
  s.step_number = s.snapshots.length ∧ stepsFrom 0 s.snapshots

/-- Consecutive numbering determines each record's step number from its
index. -/
theorem stepsFrom_get (l : List SnapshotInfo) :
    ∀ (k i : Nat) (h : i < l.length), stepsFrom k l →
      (l.get ⟨i, h⟩).step_number = k + i := by
  induction l with
  | nil =>
    intro k i h _
    exact absurd h (by simp)
  | cons a rest ih =>
    intro k i h hs
    obtain ⟨ha, hrest⟩ := hs
    cases i with
    | zero => simpa using ha
    | succ j =>
      have hj : j < rest.length := by simpa using h
      have h2 : (a :: rest).get ⟨j + 1, h⟩ = rest.get ⟨j, hj⟩ := rfl
      rw [h2, ih (k + 1) j hj hrest]
      omega

/-- Consecutive numbering bounds the step number of every member. -/
theorem stepsFrom_mem_bounds (l : List SnapshotInfo) :
    ∀ (k : Nat) (r : SnapshotInfo), stepsFrom k l → r ∈ l →
      k ≤ r.step_number ∧ r.step_number < k + l.length := by
  induction l with
  | nil =>
    intro k r _ hr
    exact absurd hr (List.not_mem_nil r)
  | cons a rest ih =>
    intro k r hs hr
    obtain ⟨ha, hrest⟩ := hs
    rcases List.mem_cons.mp hr with rfl | hr'
    · refine ⟨by omega, ?_⟩
      rw [List.length_cons]
      omega
    · obtain ⟨h1, h2⟩ := ih (k + 1) r hrest hr'
      refine ⟨by omega, ?_⟩
      rw [List.length_cons]
      omega

/-- Consecutive numbering survives truncation. -/
theorem stepsFrom_take (l : List SnapshotInfo) :
    ∀ (k n : Nat), stepsFrom k l → stepsFrom k (l.take n) := by
  induction l with
  | nil =>
    intro k n _
    rw [List.take_nil]
    exact trivial
  | cons a rest ih =>
    intro k n hs
    cases n with
    | zero => exact trivial
    | succ m =>
      obtain ⟨ha, hrest⟩ := hs
      exact ⟨ha, ih (k + 1) m hrest⟩

/-- Consecutive numbering survives appending the next record. -/
theorem stepsFrom_append_singleton (l : List SnapshotInfo) :
    ∀ (k : Nat) (a : SnapshotInfo), stepsFrom k l → a.step_number = k + l.length →
      stepsFrom k (l ++ [a]) := by
  induction l with
  | nil =>
    intro k a _ ha
    exact ⟨by simpa using ha, trivial⟩
  | cons b rest ih =>
    intro k a hs ha
    obtain ⟨hb, hrest⟩ := hs
    refine ⟨hb, ih (k + 1) a hrest ?_⟩
    rw [List.length_cons] at ha
    omega

/-- Under consecutive numbering from `k`, the `step_number <= N` filter used
by rollback is a plain truncation. -/
theorem stepsFrom_filter_le (N : Nat) (l : List SnapshotInfo) :
    ∀ (k : Nat), stepsFrom k l →
      l.filter (fun x => decide ((x.step_number : Int) ≤ (N : Int))) =
        l.take (N + 1 - k) := by
  induction l with
  | nil =>
    intro k _
    simp
  | cons a rest ih =>
    intro k hs
    obtain ⟨ha, hrest⟩ := hs
    by_cases hk : k ≤ N
    · have hak : a.step_number ≤ N := by omega
      have hpa : decide ((a.step_number : Int) ≤ (N : Int)) = true :=
        decide_eq_true (by exact_mod_cast hak)
      rw [@List.filter_cons_of_pos _ (fun x => decide ((x.step_number : Int) ≤ (N : Int)))
          a rest hpa, ih (k + 1) hrest,
        show N + 1 - k = (N - k) + 1 from by omega, List.take_succ_cons,
        show N + 1 - (k + 1) = N - k from by omega]
    · have hak : ¬((a.step_number : Int) ≤ (N : Int)) := by
        intro hc
        have hc' : a.step_number ≤ N := by exact_mod_cast hc
        omega
      have hpa : ¬(decide ((a.step_number : Int) ≤ (N : Int)) = true) := by
        simpa using hak
      rw [@List.filter_cons_of_neg _ (fun x => decide ((x.step_number : Int) ≤ (N : Int)))
          a rest hpa, ih (k + 1) hrest,
        show N + 1 - (k + 1) = 0 from by omega,
        show N + 1 - k = 0 from by omega]
      rfl

/-- A succeeding snapshot call appends the record built from the current
state and increments the counter. -/
theorem createSnapshot_good (env : Env) (s : AgentState) (hgood : goodSnapEnv env) :
    createSnapshot env s =
      { s with
        snapshots := s.snapshots ++ [⟨snapName s, s.messages.length, s.step_number⟩],
        step_number := s.step_number + 1 } := by
  obtain ⟨h1, h2, h3⟩ := hgood
  unfold createSnapshot
  rw [h1, h2, h3 (snapName s)]
  simp

/-- `_create_snapshot` preserves the ledger invariant on every environment
behaviour. -/
theorem ledgerInv_createSnapshot (env : Env) (s : AgentState) (h : ledgerInv s) :
    ledgerInv (createSnapshot env s) := by
  unfold createSnapshot
  split
  · split
    · obtain ⟨hlen, hsteps⟩ := h
      constructor
      · show s.step_number + 1 = (s.snapshots ++ [_]).length
        rw [List.length_append, hlen]
        rfl
      · show stepsFrom 0 (s.snapshots ++ [⟨snapName s, s.messages.length, s.step_number⟩])
        apply stepsFrom_append_singleton _ 0 _ hsteps
        show s.step_number = 0 + s.snapshots.length
        omega
    · exact h
  · exact h

/-- The rollback branch preserves the ledger invariant. -/
theorem ledgerInv_rollbackTo (env : Env) (s : AgentState) (o : Option Int)
    (h : ledgerInv s) : ledgerInv ((rollbackTo env s o).1) := by
  cases o with
  | none => exact h
  | some t =>
    rw [rollbackTo_some]
    cases hf : s.snapshots.find? (fun x => (x.step_number : Int) == t) with
    | none => exact h
    | some r =>
      show ledgerInv ((rollbackFound env s t r).1)
      unfold rollbackFound
      split
      · split
        · obtain ⟨hlen, hsteps⟩ := h
          have hmem := List.mem_of_find?_eq_some hf
          have hpred := List.find?_some hf
          have hrt : (r.step_number : Int) = t := by simpa using hpred
          obtain ⟨-, hlt⟩ := stepsFrom_mem_bounds s.snapshots 0 r hsteps hmem
          rw [Nat.zero_add] at hlt
          have hfil : s.snapshots.filter (fun x => decide ((x.step_number : Int) ≤ t)) =
              s.snapshots.take (r.step_number + 1) := by
            rw [← hrt]
            have hft := stepsFrom_filter_le r.step_number s.snapshots 0 hsteps
            simpa using hft
          constructor
          · show t.toNat + 1 =
              (s.snapshots.filter (fun x => decide ((x.step_number : Int) ≤ t))).length
            rw [hfil, List.length_take]
            omega
          · show stepsFrom 0
              (s.snapshots.filter (fun x => decide ((x.step_number : Int) ≤ t)))
            rw [hfil]
            exact stepsFrom_take _ 0 _ hsteps
        · exact h
        · exact h
      · exact h

/-- `_handle_rollback` preserves the ledger invariant. -/
theorem ledgerInv_handleRollback (env : Env) (s : AgentState) (inp : String)
    (h : ledgerInv s) : ledgerInv ((handleRollback env s inp).1) := by
  unfold handleRollback
  split
  · exact h
  · exact h
  · exact ledgerInv_rollbackTo env s _ h

/-- Every event preserves the ledger invariant, hence every trace does. -/
theorem ledgerInv_runEvents (tr : List AgentEvent) :
    ∀ s : AgentState, ledgerInv s → ledgerInv (runEvents s tr) := by
  induction tr with
  | nil =>
    intro s h
    exact h
  | cons e rest ih =>
    intro s h
    show ledgerInv (runEvents (applyEvent s e) rest)
    apply ih
    cases e with
    | addMsg m => exact h
    | snap env2 => exact ledgerInv_createSnapshot env2 s h
    | rb env2 inp => exact ledgerInv_handleRollback env2 s inp h

/-- C10: after any interleaving of snapshot attempts and rollback requests
from a fresh session, the step counter equals the ledger length and every
record's step number equals its ledger index; moreover a failed snapshot
attempt is a complete no-op, so the next successful attempt reuses the same
step number and the numbering never has gaps. -/
theorem ledger_step_counter_invariant :
    (∀ (m : Mode) (w : List Regex) (tr : List AgentEvent),
      (runEvents (initState m w) tr).step_number =
        (runEvents (initState m w) tr).snapshots.length ∧
      ∀ (i : Nat) (h : i < (runEvents (initState m w) tr).snapshots.length),
        ((runEvents (initState m w) tr).snapshots.get ⟨i, h⟩).step_number = i) ∧
    (∀ (env : Env) (s : AgentState),
      env.createOutcome (snapName s) = false → createSnapshot env s = s) := by
  constructor
  · intro m w tr
    have hinv := ledgerInv_runEvents tr (initState m w) ⟨rfl, trivial⟩
    refine ⟨hinv.1, fun i h => ?_⟩
    simpa using stepsFrom_get _ 0 i h hinv.2
  · intro env s hfail
    unfold createSnapshot
    split
    · rw [if_neg (by simp [hfail])]
    · rfl

/-- A small mixed trace for the C10 witness. -/
def trMixed : List AgentEvent :=
  [AgentEvent.snap envOK, AgentEvent.addMsg ⟨"user", "x"⟩, AgentEvent.snap envSnapFail,
   AgentEvent.snap envOK, AgentEvent.rb envOK "/r 0", AgentEvent.snap envOK]

/-- Witness for C10 on a concrete mixed trace and a concrete failed
attempt. -/
theorem ledger_step_counter_invariant_witness :
    ((runEvents (initState Mode.confirm []) trMixed).step_number =
      (runEvents (initState Mode.confirm []) trMixed).snapshots.length) ∧
    createSnapshot envSnapFail sampleState = sampleState :=
  ⟨(ledger_step_counter_invariant.1 Mode.confirm [] trMixed).1,
   ledger_step_counter_invariant.2 envSnapFail sampleState rfl⟩

/-- C4: after a trace of transcript appends and successful snapshot calls
from a fresh session, the ledger's step numbers are strictly increasing and
equal to their indices, and each snapshot call appends a record whose
`message_count` is the transcript length at that moment and whose name is
derived from the current, not-yet-incremented counter. -/
theorem ledger_consistency_of_successful_snapshots (m : Mode) (w : List Regex)
    (tr : List AgentEvent) (hall : ∀ e ∈ tr, snapshotEvent e) :
    List.Pairwise (fun a b => a.step_number < b.step_number)
      (runEvents (initState m w) tr).snapshots ∧
    (∀ (i : Nat) (h : i < (runEvents (initState m w) tr).snapshots.length),
      ((runEvents (initState m w) tr).snapshots.get ⟨i, h⟩).step_number = i) ∧
    (∀ (pre : List AgentEvent) (env : Env) (post : List AgentEvent),
      tr = pre ++ AgentEvent.snap env :: post →
      (runEvents (initState m w) (pre ++ [AgentEvent.snap env])).snapshots =
        (runEvents (initState m w) pre).snapshots ++
          [⟨snapName (runEvents (initState m w) pre),
            (runEvents (initState m w) pre).messages.length,
            (runEvents (initState m w) pre).step_number⟩]) := by
  have hinv := ledgerInv_runEvents tr (initState m w) ⟨rfl, trivial⟩
  have hidx : ∀ (i : Nat) (h : i < (runEvents (initState m w) tr).snapshots.length),
      ((runEvents (initState m w) tr).snapshots.get ⟨i, h⟩).step_number = i := by
    intro i h
    simpa using stepsFrom_get _ 0 i h hinv.2
  refine ⟨?_, hidx, ?_⟩
  · rw [List.pairwise_iff_get]
    intro i j hij
    rw [hidx i.1 i.2, hidx j.1 j.2]
    exact hij
  · intro pre env2 post htr
    have hmem : AgentEvent.snap env2 ∈ tr := by
      rw [htr]
      exact List.mem_append_right _ (List.mem_cons_self _ _)
    have hgood : goodSnapEnv env2 := hall _ hmem
    have hsplit : runEvents (initState m w) (pre ++ [AgentEvent.snap env2]) =
        createSnapshot env2 (runEvents (initState m w) pre) := by
      unfold runEvents
      rw [List.foldl_append]
      rfl
    rw [hsplit, createSnapshot_good env2 _ hgood]

/-- A trace of two successful snapshots with messages in between. -/
def trGood : List AgentEvent :=
  [AgentEvent.addMsg ⟨"user", "t"⟩, AgentEvent.snap envOK,
   AgentEvent.addMsg ⟨"assistant", "a"⟩, AgentEvent.addMsg ⟨"user", "o"⟩,
   AgentEvent.snap envOK]

/-- Witness for C4 on a concrete all-successful trace. -/
theorem ledger_consistency_of_successful_snapshots_witness :
    List.Pairwise (fun a b => a.step_number < b.step_number)
      (runEvents (initState Mode.confirm []) trGood).snapshots :=
  (ledger_consistency_of_successful_snapshots Mode.confirm [] trGood (by
    intro e he
    simp only [trGood, List.mem_cons, List.not_mem_nil, or_false] at he
    rcases he with rfl | rfl | rfl | rfl | rfl
    · exact trivial
    · exact ⟨rfl, rfl, fun _ => rfl⟩
    · exact trivial
    · exact trivial
    · exact ⟨rfl, rfl, fun _ => rfl⟩)).1

end Interactive
